
import Mathlib

/-!
Verification of the ms-users credential service against its specification.

The development shallowly embeds the relevant source functions:

* `checkLimits` embeds `src/utils/checkIpLimits.js` (the registration rate
  limiter): a Redis pipeline of ZADD / PEXPIRE / ZREMRANGEBYSCORE / ZCARD on
  a per-IP sorted set, followed by a threshold comparison that raises an
  HTTP 429 error when the observed cardinality exceeds the configured count.
* `sendChallenge` embeds the challenge action (the bluebird chain
  fetchInternalData / tap isActive / throw USER_ALREADY_ACTIVE /
  catch inactiveStatus passThrough / fetchMetadata / createChallenge).
* `encrypt` / `decrypt`, `register` and `activate` model the parts of the
  repository whose implementation files are not present in the source tree
  (only their tests and callers are); each such definition carries a doc
  comment starting with `Modelled from the spec:`.

Timestamps are `Int` (JavaScript `Date.now()` arithmetic never truncates at
zero the way `Nat` subtraction would); byte strings are `List Nat` with an
explicit `< 256` well-formedness condition where the cipher needs it.
-/

/-- An HTTP error as raised through common-errors HttpStatusError: a status
code plus a human readable message. -/
structure HttpErr where
  statusCode : Nat
  message : String
deriving DecidableEq

/-- State of one rate-limit window key (`reg-limit:{ip}`): the sorted-set
entries as (score, member) pairs, plus the pending Redis key expiry time
(absolute, set by PEXPIRE). -/
structure RLState where
  entries : List (Int × Nat)
  expireAt : Option Int
deriving DecidableEq

/-- Redis lazy key expiry: a key whose expiry time has been reached behaves
as absent, so the pipeline operates on an empty sorted set. -/
def applyExpiry (st : RLState) (now : Int) : RLState :=
  match st.expireAt with
  | some e => if e ≤ now then ⟨[], none⟩ else st
  | none => st

/-- Redis ZADD on the modelled sorted set: inserting a fresh member returns 1;
an existing member only gets its score updated and the reply is 0. -/
def zadd (l : List (Int × Nat)) (score : Int) (member : Nat) : Nat × List (Int × Nat) :=
  if l.any (fun p => p.2 == member) then
    (0, l.map (fun p => if p.2 == member then (score, member) else p))
  else
    (1, (score, member) :: l)

/-- Redis ZREMRANGEBYSCORE key -inf old: keeps exactly the entries whose
score is strictly greater than `old` (the range bound is inclusive). -/
def pruneOld (old : Int) (l : List (Int × Nat)) : List (Int × Nat) :=
  l.filter (fun p => decide (old < p.1))

/-- The 429 error thrown by checkLimits when the window cardinality exceeds
the configured count (message given without the contraction apostrophe). -/
def rateLimitedError : HttpErr :=
  ⟨429, "You can not register more users from your ipaddress now"⟩

/-- Embeds `checkLimits` from src/utils/checkIpLimits.js. `time` is the
window in milliseconds, `times` the maximum count, `now` the current
timestamp and `uid` the fresh uuid member for this attempt. The pipeline
result list is [zadd reply, pexpire reply, zremrangebyscore reply, zcard
reply]; the function raises the 429 error when the cardinality (element 3)
exceeds `times`, and otherwise returns the pipeline results unchanged. In
both cases the state left behind keeps the marker of this attempt. -/
def checkLimits (time : Int) (times : Nat) (st : RLState) (now : Int) (uid : Nat) :
    Except HttpErr (List Nat) × RLState :=
  let stE := applyExpiry st now
  let zres := zadd stE.entries now uid
  let old := now - time
  let pruned := pruneOld old zres.2
  let removed := zres.2.length - pruned.length
  let card := pruned.length
  let st' : RLState := ⟨pruned, some (now + time)⟩
  if card > times then (.error rateLimitedError, st')
  else (.ok [zres.1, 1, removed, card], st')

/-! ## Challenge action

The challenge action in the source is the bluebird chain

  Promise.bind(ctx).then(fetchInternalData).tap(isActive)
    .throw(USER_ALREADY_ACTIVE).catch(inactiveStatus, passThrough)
    .then(fetchMetadata).then(createChallenge)

with `inactiveStatus = { statusCode: 412 }`. The chain is embedded below as
`sendChallenge`. `getInternalData`, `isActive` and the `USER_ALREADY_ACTIVE`
constant live in files that are not part of the source tree, so they are
modelled from the spec; the constant is kept as an explicit parameter so that
theorems can quantify over the status code it carries. -/

/-- Service state seen by the challenge action: the user records (username
mapped to the active flag of the stored hash) and the list of challenge
emails queued so far. -/
structure ChalState where
  users : List (String × Bool)
  challenges : List String
deriving DecidableEq

/-- Challenge action success value, the source's `{ queued: true }`. -/
structure QueuedRes where
  queued : Bool
deriving DecidableEq

/-- Modelled from the spec: `getInternalData` (utils/userData, not in the
source tree) resolves the internal user record and rejects a missing
username with the 404 NotFound error the challenge test expects. -/
def getInternalData (st : ChalState) (username : String) : Except HttpErr Bool :=
  match st.users.find? (fun u => u.1 == username) with
  | none => .error ⟨404, "user does not exist"⟩
  | some u => .ok u.2

/-- Modelled from the spec: `isActive` (utils/isActive, not in the source
tree) resolves for an active record and rejects an inactive one with a
412 error, the marker the chain's catch filter passes through. -/
def isActive (active : Bool) : Except HttpErr Unit :=
  if active then .ok () else .error ⟨412, "account has not been activated"⟩

/-- Embeds the challenge action chain. `alreadyActive` stands for the
USER_ALREADY_ACTIVE constant (not in the source tree). After the internal
data is fetched, `.tap(isActive).throw(alreadyActive)` always produces a
rejection: the inactive 412 from isActive, or alreadyActive when isActive
resolved. `.catch({statusCode: 412}, passThrough)` turns exactly the
412-coded rejection back into continuation, after which fetchMetadata and
createChallenge queue the challenge email and answer queued: true. The
fetch error itself (404) propagates. -/
def sendChallenge (alreadyActive : HttpErr) (st : ChalState) (username : String) :
    Except HttpErr QueuedRes × ChalState :=
  match getInternalData st username with
  | .error e => (.error e, st)
  | .ok act =>
    let thrown : HttpErr :=
      match isActive act with
      | .error e1 => e1
      | .ok _ => alreadyActive
    if thrown.statusCode = 412 then
      (.ok ⟨true⟩, { st with challenges := username :: st.challenges })
    else
      (.error thrown, st)

/-! ## Challenge token codec

The implementation file (src/utils/send-email.js exporting `encrypt` and
`decrypt`) is not part of the source tree; only its unit test is. The codec
is therefore modelled from the spec: the payload is serialized (JSON), then
encrypted with a symmetric cipher keyed by the service-wide secret under a
configurable algorithm. The model uses a byte-wise keystream cipher (add the
repeating key byte modulo 256); the algorithm name is carried as an opaque
parameter. Byte strings are `List Nat` with values below 256. -/

/-- Key stream byte: the secret byte at position i, repeating cyclically. -/
def keyAt (key : List Nat) (i : Nat) : Nat :=
  key.getD (i % key.length) 0

/-- Modelled from the spec: the symmetric encryption core, a keystream cipher
adding the repeating secret byte to each message byte modulo 256, starting at
key offset i. -/
def encryptFrom (key : List Nat) : Nat → List Nat → List Nat
  | _, [] => []
  | i, b :: bs => (b + keyAt key i) % 256 :: encryptFrom key (i + 1) bs

/-- Modelled from the spec: the matching decryption core, subtracting the
repeating secret byte modulo 256. -/
def decryptFrom (key : List Nat) : Nat → List Nat → List Nat
  | _, [] => []
  | i, c :: cs => (c + 256 - keyAt key i % 256) % 256 :: decryptFrom key (i + 1) cs

/-- Modelled from the spec: the authentication tag the codec appends so that
decode can fail on a wrong key or a corrupted ciphertext instead of emitting
a different valid payload. One tag byte per message byte, keyed with twice
the keystream byte so that the tag pins down both the message byte and the
keystream byte at each position. -/
def macFrom (key : List Nat) : Nat → List Nat → List Nat
  | _, [] => []
  | i, b :: bs => (b + 2 * keyAt key i + 1) % 256 :: macFrom key (i + 1) bs

/-- Modelled from the spec: `encrypt(algorithm, secret, message)` from
send-email.js (not in the source tree); the algorithm tag selects a cipher in
the source and is carried opaquely here. -/
def encrypt (alg : String) (secret : List Nat) (message : List Nat) : List Nat :=
  encryptFrom secret 0 message

/-- Modelled from the spec: `decrypt(algorithm, secret, token)` from
send-email.js (not in the source tree). -/
def decrypt (alg : String) (secret : List Nat) (token : List Nat) : List Nat :=
  decryptFrom secret 0 token

/-- The challenge payload as serialized by the source test:
JSON.stringify({ email, secret }) with both fields as byte strings. -/
structure Payload where
  email : List Nat
  secret : List Nat
deriving DecidableEq

/-- Bytes of the JSON fragment opening the object up to the email value
(left brace, quote, email, quote, colon, quote). -/
def lit1 : List Nat := [123, 34, 101, 109, 97, 105, 108, 34, 58, 34]

/-- Bytes of the JSON fragment between the email value and the secret value
(quote, comma, quote, secret, quote, colon, quote). -/
def lit2 : List Nat := [34, 44, 34, 115, 101, 99, 114, 101, 116, 34, 58, 34]

/-- Bytes of the JSON fragment closing the object (quote, right brace). -/
def lit3 : List Nat := [34, 125]

/-- JSON serialization of the payload, as the source test builds it with
JSON.stringify over { email, secret }. -/
def serializePayload (p : Payload) : List Nat :=
  lit1 ++ p.email ++ lit2 ++ p.secret ++ lit3

/-- Inverse of the serialization: JSON.parse restricted to the exact object
shape the codec produces; any other byte string is rejected. -/
def parsePayload (bs : List Nat) : Option Payload :=
  if bs.take lit1.length = lit1 then
    let r1 := bs.drop lit1.length
    let em := r1.takeWhile (fun b => b != 34)
    let r2 := r1.dropWhile (fun b => b != 34)
    if r2.take lit2.length = lit2 then
      let r3 := r2.drop lit2.length
      let sec := r3.takeWhile (fun b => b != 34)
      let r4 := r3.dropWhile (fun b => b != 34)
      if r4 = lit3 then some ⟨em, sec⟩ else none
    else none
  else none

/-- ChallengeTokenCodec.encode: serialize, then emit the ciphertext followed
by the authentication tag, both under the service secret. -/
def encodeToken (alg : String) (secret : List Nat) (p : Payload) : List Nat :=
  encrypt alg secret (serializePayload p) ++ macFrom secret 0 (serializePayload p)

/-- ChallengeTokenCodec.decode: split the token into ciphertext and tag,
decrypt, verify that the ciphertext is the genuine encryption of the
recovered message and that the tag authenticates it, then parse; any failure
yields none (the InvalidToken outcome), never an exception and never a
payload other than the one the token genuinely encodes. -/
def decodeToken (alg : String) (secret : List Nat) (token : List Nat) : Option Payload :=
  if encryptFrom secret 0 (decryptFrom secret 0 (token.take (token.length / 2))) =
      token.take (token.length / 2) ∧
     macFrom secret 0 (decryptFrom secret 0 (token.take (token.length / 2))) =
      token.drop (token.length / 2) then
    parsePayload (decryptFrom secret 0 (token.take (token.length / 2)))
  else none

/-- A payload field is a plain JSON-safe byte string: bytes below 256 that
contain neither a double quote nor a backslash. -/
def fieldOk (l : List Nat) : Prop :=
  ∀ b ∈ l, b < 256 ∧ b ≠ 34 ∧ b ≠ 92

instance fieldOkDecidable (l : List Nat) : Decidable (fieldOk l) := by
  unfold fieldOk
  infer_instance

/-- Byte string of an ASCII string literal. -/
def strBytes (s : String) : List Nat :=
  s.toList.map Char.toNat

/-! ## Activation flow

Modelled from the spec and the activate test suite: the action decodes the
challenge token (403 with could not decode token on failure), fetches the
store-backed liveness entry keyed by the nonce carried in the payload (404
when missing or expired, 412 when its stored value differs from the payload
email), then flips the active flag (413 when the account is already active)
and consumes the liveness entry, so a replay of the same token finds no
entry. -/

/-- Association list lookup keyed with BEq. -/
def alookup {α β : Type} [BEq α] (l : List (α × β)) (k : α) : Option β :=
  (l.find? (fun q => q.1 == k)).map (fun q => q.2)

/-- Remove every entry under the given key. -/
def removeKey {α β : Type} [BEq α] (l : List (α × β)) (k : α) : List (α × β) :=
  l.filter (fun q => !(q.1 == k))

/-- Flip the active flag of the given user to true. -/
def setActive (l : List (List Nat × Bool)) (k : List Nat) : List (List Nat × Bool) :=
  l.map (fun q => if q.1 == k then (q.1, true) else q)

/-- Store state seen by the activation action: the challenge liveness
entries (nonce mapped to the canonical value it must match, here the email)
and the user records (username bytes mapped to the active flag). -/
structure ActState where
  liveness : List (List Nat × List Nat)
  users : List (List Nat × Bool)
deriving DecidableEq

/-- Session issued on successful activation (jwt.login on the username). -/
structure ActSession where
  username : List Nat
deriving DecidableEq

/-- Modelled from the spec: the activation action for a challenge token.
Decode failure is the 403 could-not-decode error; a missing liveness entry
for the payload nonce is the 404 expired-challenge error; a liveness entry
that does not match the payload email is the 412 mismatch error; an already
active account is the 413 error; otherwise the account is activated, the
liveness entry is consumed and a session is issued. -/
def activate (alg : String) (secret : List Nat) (st : ActState) (token : List Nat) :
    Except HttpErr ActSession × ActState :=
  match decodeToken alg secret token with
  | none => (.error ⟨403, "could not decode token"⟩, st)
  | some p =>
    match alookup st.liveness p.secret with
    | none => (.error ⟨404, "challenge expired or not found"⟩, st)
    | some v =>
      if v = p.email then
        match alookup st.users p.email with
        | none => (.error ⟨404, "user does not exist"⟩, st)
        | some true => (.error ⟨413, "account was already activated"⟩, st)
        | some false =>
          (.ok ⟨p.email⟩, ⟨removeKey st.liveness p.secret, setActive st.users p.email⟩)
      else (.error ⟨412, "associated email does not match token"⟩, st)

/-! ## Registration flow

Modelled from the spec and the register test suite: a presence flag (HEXISTS
on the user hash) guards creation; a set presence flag rejects the request
with the 403 already-exists error and writes nothing, and the flag is set as
part of the same step that writes the record, so two successive creations of
the same username cannot both succeed. With validation disabled the result
carries a jwt and a user object with the username and per-audience metadata
(the requested audience and the default audience) and no password field;
with validation enabled the result is exactly requiresActivation and one
challenge email is queued. -/

/-- A field of the serialized user object in the registration response. -/
inductive FieldVal where
  | str : String → FieldVal
  | audiences : List String → FieldVal
deriving DecidableEq

/-- Registration result: either the created user response with its jwt, or
the bare requiresActivation marker. -/
inductive RegisterResult where
  | created (jwt : String) (user : List (String × FieldVal))
  | requiresActivation
deriving DecidableEq

/-- Modelled from the spec: the issued JWT, opaque to this development. -/
def mkJwt (username : String) : String :=
  "jwt." ++ username

/-- Registration state: user records (username mapped to active flag; the
presence flag is membership) and the count of challenge emails queued. -/
structure RegState where
  users : List (String × Bool)
  emailsSent : Nat
deriving DecidableEq

/-- Modelled from the spec: the register action. A set presence flag for the
username rejects with the 403 already-exists error; otherwise the record is
written with the presence flag in the same step, and the result is the user
object plus jwt (validation disabled) or requiresActivation with one
challenge email queued (validation enabled). -/
def register (validationEnabled : Bool) (defaultAudience audience : String)
    (st : RegState) (username password : String) :
    Except HttpErr RegisterResult × RegState :=
  if st.users.any (fun u => u.1 == username) then
    (.error ⟨403, "\"" ++ username ++ "\" already exists"⟩, st)
  else
    if validationEnabled then
      (.ok .requiresActivation,
        ⟨(username, false) :: st.users, st.emailsSent + 1⟩)
    else
      (.ok (.created (mkJwt username)
        [("username", .str username),
         ("metadata", .audiences [audience, defaultAudience])]),
        ⟨(username, true) :: st.users, st.emailsSent⟩)

/-- Whether an outcome is a success. -/
def isOk {α : Type} : Except HttpErr α → Bool
  | .ok _ => true
  | .error _ => false

/-- C1: with maxCount 3 and a 3600000 ms window, for every subject the first
three calls inside the window succeed, the fourth fails with the 429
RateLimited error, and a further call issued after the window has elapsed
(the earlier markers having been pruned) succeeds again. -/
theorem checkLimits_three_per_window (t1 t2 t3 t4 t5 : Int) (u1 u2 u3 u4 u5 : Nat)
    (h12 : t1 ≤ t2) (h23 : t2 ≤ t3) (h34 : t3 ≤ t4)
    (hwin : t4 < t1 + 3600000) (h45 : t4 + 3600000 ≤ t5)
    (d12 : u1 ≠ u2) (d13 : u1 ≠ u3) (d23 : u2 ≠ u3)
    (d14 : u1 ≠ u4) (d24 : u2 ≠ u4) (d34 : u3 ≠ u4) :
    (checkLimits 3600000 3 ⟨[], none⟩ t1 u1).1 = .ok [1, 1, 0, 1] ∧
    (checkLimits 3600000 3
      (checkLimits 3600000 3 ⟨[], none⟩ t1 u1).2 t2 u2).1 = .ok [1, 1, 0, 2] ∧
    (checkLimits 3600000 3
      (checkLimits 3600000 3
        (checkLimits 3600000 3 ⟨[], none⟩ t1 u1).2 t2 u2).2 t3 u3).1 = .ok [1, 1, 0, 3] ∧
    (checkLimits 3600000 3
      (checkLimits 3600000 3
        (checkLimits 3600000 3
          (checkLimits 3600000 3 ⟨[], none⟩ t1 u1).2 t2 u2).2 t3 u3).2 t4 u4).1 =
      .error rateLimitedError ∧
    (checkLimits 3600000 3
      (checkLimits 3600000 3
        (checkLimits 3600000 3
          (checkLimits 3600000 3
            (checkLimits 3600000 3 ⟨[], none⟩ t1 u1).2 t2 u2).2 t3 u3).2 t4 u4).2 t5 u5).1 =
      .ok [1, 1, 0, 1] := by
  have e1 : checkLimits 3600000 3 ⟨[], none⟩ t1 u1 =
      (.ok [1, 1, 0, 1], ⟨[(t1, u1)], some (t1 + 3600000)⟩) := by
    have hp1 : t1 - 3600000 < t1 := by omega
    simp [checkLimits, applyExpiry, zadd, pruneOld, hp1]
  have e2 : checkLimits 3600000 3 ⟨[(t1, u1)], some (t1 + 3600000)⟩ t2 u2 =
      (.ok [1, 1, 0, 2], ⟨[(t2, u2), (t1, u1)], some (t2 + 3600000)⟩) := by
    have hx : ¬ (t1 + 3600000 ≤ t2) := by omega
    have hp1 : t2 - 3600000 < t2 := by omega
    have hp2 : t2 - 3600000 < t1 := by omega
    simp [checkLimits, applyExpiry, zadd, pruneOld, hx, hp1, hp2, d12]
  have e3 : checkLimits 3600000 3 ⟨[(t2, u2), (t1, u1)], some (t2 + 3600000)⟩ t3 u3 =
      (.ok [1, 1, 0, 3], ⟨[(t3, u3), (t2, u2), (t1, u1)], some (t3 + 3600000)⟩) := by
    have hx : ¬ (t2 + 3600000 ≤ t3) := by omega
    have hp1 : t3 - 3600000 < t3 := by omega
    have hp2 : t3 - 3600000 < t2 := by omega
    have hp3 : t3 - 3600000 < t1 := by omega
    simp [checkLimits, applyExpiry, zadd, pruneOld, hx, hp1, hp2, hp3, d13, d23]
  have e4 : checkLimits 3600000 3
      ⟨[(t3, u3), (t2, u2), (t1, u1)], some (t3 + 3600000)⟩ t4 u4 =
      (.error rateLimitedError,
        ⟨[(t4, u4), (t3, u3), (t2, u2), (t1, u1)], some (t4 + 3600000)⟩) := by
    have hx : ¬ (t3 + 3600000 ≤ t4) := by omega
    have hp1 : t4 - 3600000 < t4 := by omega
    have hp2 : t4 - 3600000 < t3 := by omega
    have hp3 : t4 - 3600000 < t2 := by omega
    have hp4 : t4 - 3600000 < t1 := by omega
    simp [checkLimits, applyExpiry, zadd, pruneOld, hx, hp1, hp2, hp3, hp4, d14, d24, d34]
  have e5 : checkLimits 3600000 3
      ⟨[(t4, u4), (t3, u3), (t2, u2), (t1, u1)], some (t4 + 3600000)⟩ t5 u5 =
      (.ok [1, 1, 0, 1], ⟨[(t5, u5)], some (t5 + 3600000)⟩) := by
    have hx : t4 + 3600000 ≤ t5 := h45
    have hp1 : t5 - 3600000 < t5 := by omega
    simp [checkLimits, applyExpiry, zadd, pruneOld, hx, hp1]
  rw [e1]
  simp only []
  rw [e2]
  simp only []
  rw [e3]
  simp only []
  rw [e4]
  simp only []
  rw [e5]
  simp only [and_self]

/-- C1 witness: the rate limiter run on the concrete schedule 0, 1, 2, 3,
3600003 with distinct markers shows the 3-success / 429 / recovery shape. -/
theorem checkLimits_three_per_window_witness :
    (checkLimits 3600000 3 ⟨[], none⟩ 0 1).1 = .ok [1, 1, 0, 1] ∧
    (checkLimits 3600000 3
      (checkLimits 3600000 3 ⟨[], none⟩ 0 1).2 1 2).1 = .ok [1, 1, 0, 2] ∧
    (checkLimits 3600000 3
      (checkLimits 3600000 3
        (checkLimits 3600000 3 ⟨[], none⟩ 0 1).2 1 2).2 2 3).1 = .ok [1, 1, 0, 3] ∧
    (checkLimits 3600000 3
      (checkLimits 3600000 3
        (checkLimits 3600000 3
          (checkLimits 3600000 3 ⟨[], none⟩ 0 1).2 1 2).2 2 3).2 3 4).1 =
      .error rateLimitedError ∧
    (checkLimits 3600000 3
      (checkLimits 3600000 3
        (checkLimits 3600000 3
          (checkLimits 3600000 3
            (checkLimits 3600000 3 ⟨[], none⟩ 0 1).2 1 2).2 2 3).2 3 4).2 3600003 5).1 =
      .ok [1, 1, 0, 1] :=
  checkLimits_three_per_window 0 1 2 3 3600003 1 2 3 4 5
    (by decide) (by decide) (by decide) (by decide) (by decide)
    (by decide) (by decide) (by decide) (by decide) (by decide) (by decide)

/-- The state a checkLimits call leaves behind does not depend on whether the
threshold comparison raised: it is always the pruned window after the ZADD,
with the PEXPIRE deadline refreshed. -/
theorem checkLimits_snd_eq (time : Int) (times : Nat) (st : RLState) (now : Int) (uid : Nat) :
    (checkLimits time times st now uid).2 =
      ⟨pruneOld (now - time) (zadd (applyExpiry st now).entries now uid).2,
        some (now + time)⟩ := by
  unfold checkLimits
  simp only []
  split <;> rfl

/-- ZADD of a member absent from the set conses the new scored member on. -/
theorem zadd_fresh (l : List (Int × Nat)) (score : Int) (member : Nat)
    (h : (l.any fun p => p.2 == member) = false) :
    zadd l score member = (1, (score, member) :: l) := by
  unfold zadd
  rw [h]
  simp

/-- ZADD never drops a pair whose member differs from the added member. -/
theorem zadd_mem_preserved (l : List (Int × Nat)) (score : Int) (member : Nat)
    (p : Int × Nat) (hp : p ∈ l) (hne : p.2 ≠ member) :
    p ∈ (zadd l score member).2 := by
  unfold zadd
  by_cases hany : (l.any fun q => q.2 == member) = true
  · rw [if_pos hany]
    refine List.mem_map.mpr ⟨p, hp, ?_⟩
    simp [hne]
  · rw [if_neg hany]
    exact List.mem_cons_of_mem _ hp

/-- Entries surviving lazy key expiry were entries of the original state. -/
theorem applyExpiry_entries_subset (st : RLState) (now : Int) :
    ∀ p ∈ (applyExpiry st now).entries, p ∈ st.entries := by
  intro p hp
  unfold applyExpiry at hp
  rcases hx : st.expireAt with _ | ex
  · rw [hx] at hp
    exact hp
  · rw [hx] at hp
    by_cases hle : ex ≤ now
    · simp [hle] at hp
    · simpa [hle] using hp

/-- C2: a call rejected with RateLimited leaves its marker behind: the marker
inserted for the rejected attempt is in the state the failing call returns,
and every subsequent call inside the same window still carries it in the
pruned set whose cardinality the threshold comparison observes. -/
theorem checkLimits_rejected_marker_persists (time : Int) (times : Nat)
    (st : RLState) (now : Int) (uid : Nat) (htime : 0 < time)
    (hfresh : ∀ p ∈ st.entries, p.2 ≠ uid)
    (e : HttpErr) (st' : RLState)
    (hcall : checkLimits time times st now uid = (.error e, st')) :
    (now, uid) ∈ st'.entries ∧
    ∀ now2 uid2, now ≤ now2 → now2 < now + time → uid2 ≠ uid →
      (now, uid) ∈ ((checkLimits time times st' now2 uid2).2).entries := by
  have hanyE : ((applyExpiry st now).entries.any fun p => p.2 == uid) = false := by
    simp only [List.any_eq_false]
    intro p hp
    simpa using hfresh p (applyExpiry_entries_subset st now p hp)
  have hsnd := checkLimits_snd_eq time times st now uid
  rw [zadd_fresh _ _ _ hanyE] at hsnd
  have hst' : st' = ⟨pruneOld (now - time) ((now, uid) :: (applyExpiry st now).entries),
      some (now + time)⟩ := by
    have h2 := congrArg Prod.snd hcall
    simp only [] at h2
    rw [← h2, hsnd]
  have hmem : (now, uid) ∈ st'.entries := by
    rw [hst']
    refine List.mem_filter.mpr ⟨List.mem_cons_self _ _, ?_⟩
    simp only [decide_eq_true_eq]
    omega
  refine ⟨hmem, ?_⟩
  intro now2 uid2 hle hlt hne
  have hexp : applyExpiry st' now2 = st' := by
    rw [hst']
    unfold applyExpiry
    simp only []
    rw [if_neg (by omega)]
  rw [checkLimits_snd_eq, hexp]
  have hmem2 : (now, uid) ∈ (zadd st'.entries now2 uid2).2 :=
    zadd_mem_preserved _ _ _ _ hmem (by simpa using Ne.symm hne)
  exact List.mem_filter.mpr ⟨hmem2, by simp only [decide_eq_true_eq]; omega⟩

/-- C2 witness: on the concrete failing fourth call at time 3 (window already
holding markers at 0, 1, 2 with threshold 3) the rejected marker (3, 4) stays
in the returned window and is still present in the set observed by a
subsequent call inside the window. -/
theorem checkLimits_rejected_marker_persists_witness :
    ((3 : Int), (4 : Nat)) ∈
      (⟨[(3, 4), (2, 3), (1, 2), (0, 1)], some 3600003⟩ : RLState).entries ∧
    ∀ now2 uid2, (3 : Int) ≤ now2 → now2 < 3 + 3600000 → uid2 ≠ 4 →
      ((3 : Int), (4 : Nat)) ∈
        ((checkLimits 3600000 3 ⟨[(3, 4), (2, 3), (1, 2), (0, 1)], some 3600003⟩
          now2 uid2).2).entries :=
  checkLimits_rejected_marker_persists 3600000 3
    ⟨[(2, 3), (1, 2), (0, 1)], some 3600002⟩ 3 4 (by decide)
    (by decide) rateLimitedError _ rfl

/-- When the pruned cardinality does not exceed the threshold, checkLimits
returns the pipeline replies instead of raising. -/
theorem checkLimits_fst_le (time : Int) (times : Nat) (st : RLState) (now : Int) (uid : Nat)
    (h : ¬ (pruneOld (now - time) (zadd (applyExpiry st now).entries now uid).2).length > times) :
    (checkLimits time times st now uid).1 =
      .ok [(zadd (applyExpiry st now).entries now uid).1, 1,
        (zadd (applyExpiry st now).entries now uid).2.length -
          (pruneOld (now - time) (zadd (applyExpiry st now).entries now uid).2).length,
        (pruneOld (now - time) (zadd (applyExpiry st now).entries now uid).2).length] := by
  unfold checkLimits
  simp only []
  rw [if_neg h]

/-- C8: a call whose post-prune window cardinality stays within the maximum
succeeds, and the count it hands back to the caller (the fourth pipeline
reply) is exactly the cardinality of the window after the current marker was
inserted and the markers older than now minus the window were pruned: the
current marker is a member, every member is newer than the cutoff, and no
member besides the current marker is new. -/
theorem checkLimits_success_returns_count (time : Int) (times : Nat) (st : RLState)
    (now : Int) (uid : Nat) (htime : 0 < time)
    (hfresh : ∀ p ∈ st.entries, p.2 ≠ uid)
    (hcard : ((checkLimits time times st now uid).2).entries.length ≤ times) :
    (∃ removed, (checkLimits time times st now uid).1 =
        .ok [1, 1, removed, ((checkLimits time times st now uid).2).entries.length]) ∧
    (now, uid) ∈ ((checkLimits time times st now uid).2).entries ∧
    (∀ p ∈ ((checkLimits time times st now uid).2).entries, now - time < p.1) ∧
    (∀ p ∈ ((checkLimits time times st now uid).2).entries,
      p = (now, uid) ∨ p ∈ st.entries) := by
  have hanyE : ((applyExpiry st now).entries.any fun p => p.2 == uid) = false := by
    simp only [List.any_eq_false]
    intro p hp
    simpa using hfresh p (applyExpiry_entries_subset st now p hp)
  have hentries : ((checkLimits time times st now uid).2).entries =
      pruneOld (now - time) ((now, uid) :: (applyExpiry st now).entries) := by
    rw [checkLimits_snd_eq, zadd_fresh _ _ _ hanyE]
  have hnot : ¬ (pruneOld (now - time)
      (zadd (applyExpiry st now).entries now uid).2).length > times := by
    rw [zadd_fresh _ _ _ hanyE]
    rw [hentries] at hcard
    simp only []
    omega
  refine ⟨?_, ?_, ?_, ?_⟩
  · refine ⟨((now, uid) :: (applyExpiry st now).entries).length -
      (pruneOld (now - time) ((now, uid) :: (applyExpiry st now).entries)).length, ?_⟩
    rw [checkLimits_fst_le time times st now uid hnot, zadd_fresh _ _ _ hanyE, hentries]
  · rw [hentries]
    refine List.mem_filter.mpr ⟨List.mem_cons_self _ _, ?_⟩
    simp only [decide_eq_true_eq]
    omega
  · rw [hentries]
    intro p hp
    have h2 := (List.mem_filter.mp hp).2
    simpa using h2
  · rw [hentries]
    intro p hp
    rcases List.mem_cons.mp (List.mem_filter.mp hp).1 with h | h
    · exact Or.inl h
    · exact Or.inr (applyExpiry_entries_subset st now p h)

/-- C8 witness: a concrete accepted call (window 10 ms, threshold 3, empty
window, marker 7 at time 0) returns the pipeline replies carrying the
post-prune cardinality. -/
theorem checkLimits_success_returns_count_witness :
    (∃ removed, (checkLimits 10 3 ⟨[], none⟩ 0 7).1 =
        .ok [1, 1, removed, ((checkLimits 10 3 ⟨[], none⟩ 0 7).2).entries.length]) ∧
    ((0 : Int), (7 : Nat)) ∈ ((checkLimits 10 3 ⟨[], none⟩ 0 7).2).entries ∧
    (∀ p ∈ ((checkLimits 10 3 ⟨[], none⟩ 0 7).2).entries, (0 : Int) - 10 < p.1) ∧
    (∀ p ∈ ((checkLimits 10 3 ⟨[], none⟩ 0 7).2).entries,
      p = ((0 : Int), (7 : Nat)) ∨ p ∈ (⟨[], none⟩ : RLState).entries) :=
  checkLimits_success_returns_count 10 3 ⟨[], none⟩ 0 7
    (by decide) (by decide) (by decide)

/-- C6 counterexample: if the already-active failure is literally of the 412
class, as the claim states, the chain's catch filter (which matches on
statusCode 412) swallows it: the challenge request for an active user is NOT
rejected; it succeeds and queues a challenge. -/
theorem sendChallenge_active_412_not_rejected :
    sendChallenge ⟨412, "user is already active"⟩ ⟨[("v@example.com", true)], []⟩
      "v@example.com" =
      (.ok ⟨true⟩, ⟨[("v@example.com", true)], ["v@example.com"]⟩) := by
  rfl

/-- C6 amended: provided the already-active error carries a status code
other than 412 (the code the pass-through filter matches, so the real
constant must differ from 412), a challenge request for an active user is
rejected with that error and queues nothing, while a request for an
inactive user queues exactly one challenge and answers queued: true. -/
theorem sendChallenge_active_rejected (alreadyActive : HttpErr) (st : ChalState)
    (username : String) (act : Bool)
    (hfind : st.users.find? (fun u => u.1 == username) = some (username, act)) :
    (act = true → alreadyActive.statusCode ≠ 412 →
      sendChallenge alreadyActive st username = (.error alreadyActive, st)) ∧
    (act = false →
      sendChallenge alreadyActive st username =
        (.ok ⟨true⟩, { st with challenges := username :: st.challenges })) := by
  constructor
  · intro hact hcode
    unfold sendChallenge getInternalData
    rw [hfind]
    simp [isActive, hact, hcode]
  · intro hact
    unfold sendChallenge getInternalData
    rw [hfind]
    simp [hact, isActive]

/-- C6 witness: with a 417-coded already-active error, the active user is
rejected and the inactive user gets a queued challenge, on concrete states. -/
theorem sendChallenge_active_rejected_witness :
    (sendChallenge ⟨417, "user is already active"⟩ ⟨[("a@b.c", true)], []⟩ "a@b.c" =
      (.error ⟨417, "user is already active"⟩, ⟨[("a@b.c", true)], []⟩)) ∧
    (sendChallenge ⟨417, "user is already active"⟩ ⟨[("d@b.c", false)], []⟩ "d@b.c" =
      (.ok ⟨true⟩, ⟨[("d@b.c", false)], ["d@b.c"]⟩)) :=
  ⟨(sendChallenge_active_rejected ⟨417, "user is already active"⟩
      ⟨[("a@b.c", true)], []⟩ "a@b.c" true (by decide)).1 rfl (by decide),
   (sendChallenge_active_rejected ⟨417, "user is already active"⟩
      ⟨[("d@b.c", false)], []⟩ "d@b.c" false (by decide)).2 rfl⟩

/-- C10: a challenge request for a username with no user record is rejected
with the 404 NotFound error before any challenge is created: the state is
returned untouched, so the failure discriminator reveals nonexistence. -/
theorem sendChallenge_missing_user_404 (alreadyActive : HttpErr) (st : ChalState)
    (username : String)
    (hnone : st.users.find? (fun u => u.1 == username) = none) :
    sendChallenge alreadyActive st username =
      (.error ⟨404, "user does not exist"⟩, st) := by
  unfold sendChallenge getInternalData
  rw [hnone]

/-- C10 witness: the concrete challenge request for an unknown username is
rejected with 404 and the state is unchanged. -/
theorem sendChallenge_missing_user_404_witness :
    sendChallenge ⟨417, "user is already active"⟩ ⟨[("a@b.c", true)], []⟩
      "oops@gmail.com" =
      (.error ⟨404, "user does not exist"⟩, ⟨[("a@b.c", true)], []⟩) :=
  sendChallenge_missing_user_404 ⟨417, "user is already active"⟩
    ⟨[("a@b.c", true)], []⟩ "oops@gmail.com" (by decide)

/-- Decrypting inverts encrypting, byte by byte, for messages of bytes below
256, at every key offset. -/
theorem decryptFrom_encryptFrom (key : List Nat) :
    ∀ (m : List Nat), (∀ b ∈ m, b < 256) →
      ∀ i, decryptFrom key i (encryptFrom key i m) = m := by
  intro m
  induction m with
  | nil => intro _ i; rfl
  | cons b bs ih =>
    intro hm i
    have hb : b < 256 := hm b (List.mem_cons_self _ _)
    have hbs : ∀ x ∈ bs, x < 256 := fun x hx => hm x (List.mem_cons_of_mem _ hx)
    simp only [encryptFrom, decryptFrom]
    rw [ih hbs (i + 1)]
    congr 1
    omega

/-- takeWhile with the not-a-quote predicate reads exactly a quote-free
chunk up to the next quote. -/
theorem takeWhile_quote (l r : List Nat) (hl : ∀ b ∈ l, b ≠ 34) :
    (l ++ 34 :: r).takeWhile (fun b => b != 34) = l := by
  induction l with
  | nil => simp
  | cons a as ih =>
    have ha : a ≠ 34 := hl a (List.mem_cons_self _ _)
    simp only [List.cons_append, List.takeWhile_cons]
    simp [ha, ih (fun b hb => hl b (List.mem_cons_of_mem _ hb))]

/-- dropWhile with the not-a-quote predicate stops exactly at the next
quote. -/
theorem dropWhile_quote (l r : List Nat) (hl : ∀ b ∈ l, b ≠ 34) :
    (l ++ 34 :: r).dropWhile (fun b => b != 34) = 34 :: r := by
  induction l with
  | nil => simp
  | cons a as ih =>
    have ha : a ≠ 34 := hl a (List.mem_cons_self _ _)
    simp only [List.cons_append, List.dropWhile_cons]
    simp [ha, ih (fun b hb => hl b (List.mem_cons_of_mem _ hb))]

/-- Every byte of a serialized well-formed payload is below 256. -/
theorem serializePayload_lt (p : Payload) (he : fieldOk p.email) (hs : fieldOk p.secret) :
    ∀ b ∈ serializePayload p, b < 256 := by
  intro b hb
  have hlit : ∀ x ∈ lit1 ++ lit2 ++ lit3, x < 256 := by decide
  simp only [serializePayload, List.mem_append] at hb
  rcases hb with ((((h | h) | h) | h) | h)
  · exact hlit b (by simp [List.mem_append, h])
  · exact (he b h).1
  · exact hlit b (by simp [List.mem_append, h])
  · exact (hs b h).1
  · exact hlit b (by simp [List.mem_append, h])

/-- Parsing inverts serialization on well-formed payloads. -/
theorem parse_serialize (p : Payload) (he : fieldOk p.email) (hs : fieldOk p.secret) :
    parsePayload (serializePayload p) = some p := by
  have hemail : ∀ b ∈ p.email, b ≠ 34 := fun b hb => (he b hb).2.1
  have hsecret : ∀ b ∈ p.secret, b ≠ 34 := fun b hb => (hs b hb).2.1
  have hassoc : serializePayload p =
      lit1 ++ (p.email ++ 34 :: ([44, 34, 115, 101, 99, 114, 101, 116, 34, 58, 34] ++
        (p.secret ++ 34 :: [125]))) := by
    simp [serializePayload, lit1, lit2, lit3]
  unfold parsePayload
  rw [hassoc]
  rw [List.take_left, List.drop_left]
  rw [if_pos rfl]
  simp only []
  rw [takeWhile_quote _ _ hemail, dropWhile_quote _ _ hemail]
  have hlit2 : (34 :: ([44, 34, 115, 101, 99, 114, 101, 116, 34, 58, 34] ++
      (p.secret ++ 34 :: [125]))) = lit2 ++ (p.secret ++ 34 :: [125]) := by
    simp [lit2]
  rw [hlit2]
  rw [List.take_left, List.drop_left]
  rw [if_pos rfl]
  rw [takeWhile_quote _ _ hsecret, dropWhile_quote _ _ hsecret]
  rfl

/-- The keystream encryption preserves length. -/
theorem encryptFrom_length (key : List Nat) : ∀ (i : Nat) (m : List Nat),
    (encryptFrom key i m).length = m.length := by
  intro i m
  induction m generalizing i with
  | nil => rfl
  | cons b bs ih => simp [encryptFrom, ih]

/-- The keystream decryption preserves length. -/
theorem decryptFrom_length (key : List Nat) : ∀ (i : Nat) (c : List Nat),
    (decryptFrom key i c).length = c.length := by
  intro i c
  induction c generalizing i with
  | nil => rfl
  | cons b bs ih => simp [decryptFrom, ih]

/-- The authentication tag has one byte per message byte. -/
theorem macFrom_length (key : List Nat) : ∀ (i : Nat) (m : List Nat),
    (macFrom key i m).length = m.length := by
  intro i m
  induction m generalizing i with
  | nil => rfl
  | cons b bs ih => simp [macFrom, ih]

/-- Byte j of the ciphertext started at key offset i adds keystream byte
i + j. -/
theorem encryptFrom_getD (key : List Nat) : ∀ (m : List Nat) (i j : Nat),
    j < m.length →
    (encryptFrom key i m).getD j 0 = (m.getD j 0 + keyAt key (i + j)) % 256 := by
  intro m
  induction m with
  | nil => intro i j h; simp at h
  | cons b bs ih =>
    intro i j h
    cases j with
    | zero => simp [encryptFrom]
    | succ j2 =>
      show (encryptFrom key (i + 1) bs).getD j2 0 = (bs.getD j2 0 + keyAt key (i + (j2 + 1))) % 256
      rw [ih (i + 1) j2 (by simpa using h)]
      have hidx : i + 1 + j2 = i + (j2 + 1) := by omega
      rw [hidx]

/-- Byte j of the decryption started at key offset i subtracts keystream
byte i + j. -/
theorem decryptFrom_getD (key : List Nat) : ∀ (c : List Nat) (i j : Nat),
    j < c.length →
    (decryptFrom key i c).getD j 0 =
      (c.getD j 0 + 256 - keyAt key (i + j) % 256) % 256 := by
  intro c
  induction c with
  | nil => intro i j h; simp at h
  | cons b bs ih =>
    intro i j h
    cases j with
    | zero => simp [decryptFrom]
    | succ j2 =>
      show (decryptFrom key (i + 1) bs).getD j2 0 =
        (bs.getD j2 0 + 256 - keyAt key (i + (j2 + 1)) % 256) % 256
      rw [ih (i + 1) j2 (by simpa using h)]
      have hidx : i + 1 + j2 = i + (j2 + 1) := by omega
      rw [hidx]

/-- Byte j of the tag started at key offset i commits to the message byte
and twice the keystream byte at i + j. -/
theorem macFrom_getD (key : List Nat) : ∀ (m : List Nat) (i j : Nat),
    j < m.length →
    (macFrom key i m).getD j 0 = (m.getD j 0 + 2 * keyAt key (i + j) + 1) % 256 := by
  intro m
  induction m with
  | nil => intro i j h; simp at h
  | cons b bs ih =>
    intro i j h
    cases j with
    | zero => simp [macFrom]
    | succ j2 =>
      show (macFrom key (i + 1) bs).getD j2 0 =
        (bs.getD j2 0 + 2 * keyAt key (i + (j2 + 1)) + 1) % 256
      rw [ih (i + 1) j2 (by simpa using h)]
      have hidx : i + 1 + j2 = i + (j2 + 1) := by omega
      rw [hidx]

/-- getD into the left part of an append. -/
theorem getD_append_lt {α : Type} (l1 l2 : List α) (j : Nat) (d : α)
    (h : j < l1.length) : (l1 ++ l2).getD j d = l1.getD j d := by
  induction l1 generalizing j with
  | nil => simp at h
  | cons a as ih =>
    cases j with
    | zero => rfl
    | succ j2 =>
      show (as ++ l2).getD j2 d = as.getD j2 d
      exact ih j2 (by simpa using h)

/-- getD into the right part of an append. -/
theorem getD_append_ge {α : Type} (l1 l2 : List α) (j : Nat) (d : α)
    (h : l1.length ≤ j) : (l1 ++ l2).getD j d = l2.getD (j - l1.length) d := by
  induction l1 generalizing j with
  | nil => simp
  | cons a as ih =>
    cases j with
    | zero => simp at h
    | succ j2 =>
      show (as ++ l2).getD j2 d = l2.getD (j2 + 1 - (as.length + 1)) d
      have hidx : j2 + 1 - (as.length + 1) = j2 - as.length := by omega
      rw [hidx]
      exact ih j2 (by simpa using h)

/-- Setting a position inside the left part of an append. -/
theorem set_append_lt {α : Type} (l1 l2 : List α) (j : Nat) (b : α)
    (h : j < l1.length) : (l1 ++ l2).set j b = l1.set j b ++ l2 := by
  induction l1 generalizing j with
  | nil => simp at h
  | cons a as ih =>
    cases j with
    | zero => rfl
    | succ j2 =>
      show a :: (as ++ l2).set j2 b = a :: (as.set j2 b ++ l2)
      rw [ih j2 (by simpa using h)]

/-- Setting a position inside the right part of an append. -/
theorem set_append_ge {α : Type} (l1 l2 : List α) (j : Nat) (b : α)
    (h : l1.length ≤ j) : (l1 ++ l2).set j b = l1 ++ l2.set (j - l1.length) b := by
  induction l1 generalizing j with
  | nil => simp
  | cons a as ih =>
    cases j with
    | zero => simp at h
    | succ j2 =>
      show a :: (as ++ l2).set j2 b = a :: (as ++ l2.set (j2 + 1 - (as.length + 1)) b)
      have hidx : j2 + 1 - (as.length + 1) = j2 - as.length := by omega
      rw [hidx, ih j2 (by simpa using h)]

/-- getD at the position just set returns the new value. -/
theorem getD_set_self {α : Type} (l : List α) (j : Nat) (b d : α)
    (h : j < l.length) : (l.set j b).getD j d = b := by
  induction l generalizing j with
  | nil => simp at h
  | cons a as ih =>
    cases j with
    | zero => rfl
    | succ j2 =>
      show (as.set j2 b).getD j2 d = b
      exact ih j2 (by simpa using h)

/-- getD inside the list bounds is a member. -/
theorem getD_mem {α : Type} (l : List α) (j : Nat) (d : α) (h : j < l.length) :
    l.getD j d ∈ l := by
  induction l generalizing j with
  | nil => simp at h
  | cons a as ih =>
    cases j with
    | zero => simp
    | succ j2 =>
      show as.getD j2 d ∈ a :: as
      exact List.mem_cons_of_mem _ (ih j2 (by simpa using h))

/-- On a token split as ciphertext plus equally long tag, decode operates on
exactly those two halves. -/
theorem decodeToken_split (alg : String) (secret : List Nat) (c g : List Nat)
    (hcg : c.length = g.length) :
    decodeToken alg secret (c ++ g) =
      if encryptFrom secret 0 (decryptFrom secret 0 c) = c ∧
         macFrom secret 0 (decryptFrom secret 0 c) = g then
        parsePayload (decryptFrom secret 0 c)
      else none := by
  have hn : (c ++ g).length / 2 = c.length := by
    rw [List.length_append, ← hcg]
    omega
  unfold decodeToken
  rw [hn, List.take_left, List.drop_left]

/-- Parsing is sound: a parsed byte string is exactly the serialization of
the payload it parses to. -/
theorem parse_sound (bs : List Nat) (q : Payload) (h : parsePayload bs = some q) :
    bs = serializePayload q := by
  unfold parsePayload at h
  by_cases h1 : bs.take lit1.length = lit1
  · rw [if_pos h1] at h
    simp only [] at h
    by_cases h2 : ((bs.drop lit1.length).dropWhile (fun b => b != 34)).take lit2.length = lit2
    · rw [if_pos h2] at h
      by_cases h3 : ((((bs.drop lit1.length).dropWhile (fun b => b != 34)).drop
          lit2.length).dropWhile (fun b => b != 34)) = lit3
      · rw [if_pos h3] at h
        have hq := Option.some.inj h
        subst hq
        have f2 : (bs.drop lit1.length).takeWhile (fun b => b != 34) ++
            (bs.drop lit1.length).dropWhile (fun b => b != 34) = bs.drop lit1.length := by
          rw [List.takeWhile_append_dropWhile]
        have f4 : ((((bs.drop lit1.length).dropWhile (fun b => b != 34)).drop
              lit2.length).takeWhile (fun b => b != 34)) ++ lit3 =
            (((bs.drop lit1.length).dropWhile (fun b => b != 34)).drop lit2.length) := by
          rw [← h3, List.takeWhile_append_dropWhile]
        have f3 : lit2 ++ (((bs.drop lit1.length).dropWhile (fun b => b != 34)).drop
              lit2.length) = (bs.drop lit1.length).dropWhile (fun b => b != 34) := by
          nth_rewrite 1 [← h2]
          rw [List.take_append_drop]
        have e1 : lit1 ++ bs.drop lit1.length = bs := by
          nth_rewrite 1 [← h1]
          rw [List.take_append_drop]
        have hfinal : serializePayload
            ⟨(bs.drop lit1.length).takeWhile (fun b => b != 34),
              (((bs.drop lit1.length).dropWhile (fun b => b != 34)).drop
                lit2.length).takeWhile (fun b => b != 34)⟩ = bs := by
          show lit1 ++ (bs.drop lit1.length).takeWhile (fun b => b != 34) ++ lit2 ++
            ((((bs.drop lit1.length).dropWhile (fun b => b != 34)).drop
              lit2.length).takeWhile (fun b => b != 34)) ++ lit3 = bs
          simp only [List.append_assoc]
          rw [f4, f3, f2]
          exact e1
        exact hfinal.symm
      · rw [if_neg h3] at h
        exact absurd h (by simp)
    · rw [if_neg h2] at h
      exact absurd h (by simp)
  · rw [if_neg h1] at h
    exact absurd h (by simp)

/-- Round trip of the full codec: decoding an encoded well-formed payload
with the same algorithm tag and secret gives back exactly the payload. -/
theorem decode_encode (alg : String) (secret : List Nat) (p : Payload)
    (he : fieldOk p.email) (hs : fieldOk p.secret) :
    decodeToken alg secret (encodeToken alg secret p) = some p := by
  have hm := serializePayload_lt p he hs
  have hcg : (encryptFrom secret 0 (serializePayload p)).length =
      (macFrom secret 0 (serializePayload p)).length := by
    rw [encryptFrom_length, macFrom_length]
  unfold encodeToken encrypt
  rw [decodeToken_split alg secret _ _ hcg]
  rw [decryptFrom_encryptFrom secret (serializePayload p) hm 0]
  rw [if_pos ⟨rfl, rfl⟩]
  exact parse_serialize p he hs

/-- C4: for every well-formed payload, decode of encode under the same
algorithm and service secret returns exactly the payload, and the encoded
token differs from the serialized plaintext (for a secret whose first
keystream byte is nonzero modulo 256, i.e. any real secret). -/
theorem encodeToken_roundtrip_and_opaque (alg : String) (secret : List Nat) (p : Payload)
    (he : fieldOk p.email) (hs : fieldOk p.secret)
    (hkey : keyAt secret 0 % 256 ≠ 0) :
    decodeToken alg secret (encodeToken alg secret p) = some p ∧
    encodeToken alg secret p ≠ serializePayload p := by
  refine ⟨decode_encode alg secret p he hs, ?_⟩
  intro heq
  have hser : serializePayload p = 123 :: (lit1.tail ++ p.email ++ lit2 ++ p.secret ++ lit3) := by
    simp [serializePayload, lit1, lit2, lit3]
  unfold encodeToken encrypt at heq
  rw [hser] at heq
  simp only [encryptFrom, List.cons_append] at heq
  have hhead : (123 + keyAt secret 0) % 256 = 123 := (List.cons.injEq _ _ _ _ ▸ heq).1
  omega

/-- C4 witness: the test payload { email: v@example.com, secret:
super-secret } round-trips through the codec under the super-secret key and
its token differs from the plaintext JSON. -/
theorem encodeToken_roundtrip_and_opaque_witness :
    decodeToken "aes-256-ctr" (strBytes "super-secret")
      (encodeToken "aes-256-ctr" (strBytes "super-secret")
        ⟨strBytes "v@example.com", strBytes "super-secret"⟩) =
      some ⟨strBytes "v@example.com", strBytes "super-secret"⟩ ∧
    encodeToken "aes-256-ctr" (strBytes "super-secret")
      ⟨strBytes "v@example.com", strBytes "super-secret"⟩ ≠
      serializePayload ⟨strBytes "v@example.com", strBytes "super-secret"⟩ :=
  encodeToken_roundtrip_and_opaque "aes-256-ctr" (strBytes "super-secret")
    ⟨strBytes "v@example.com", strBytes "super-secret"⟩
    (by decide) (by decide) (by decide)

/-- Removing a key really removes it from the association list. -/
theorem alookup_removeKey {α β : Type} [BEq α] (l : List (α × β)) (k : α) :
    alookup (removeKey l k) k = none := by
  have hfind : (removeKey l k).find? (fun q => q.1 == k) = none := by
    rw [List.find?_eq_none]
    intro q hq
    have h2 := (List.mem_filter.mp hq).2
    simp only [Bool.not_eq_eq_eq_not, Bool.not_true] at h2
    simp [h2]
  simp [alookup, hfind]

/-- An undecodable token makes the activation action return the typed 403
could-not-decode error with the state untouched. -/
theorem activate_decode_failure_403 (alg : String) (secret : List Nat) (st : ActState)
    (token : List Nat) (hdec : decodeToken alg secret token = none) :
    activate alg secret st token = (.error ⟨403, "could not decode token"⟩, st) := by
  unfold activate
  rw [hdec]

/-- Corrupting any single byte of a genuine token (to a different byte
value) breaks the authentication check, so decode fails instead of
returning a different valid payload. -/
theorem decodeToken_corrupt (alg : String) (key m : List Nat)
    (hm : ∀ x ∈ m, x < 256) (j b : Nat)
    (hj : j < (encryptFrom key 0 m ++ macFrom key 0 m).length) (hb : b < 256)
    (hne : b ≠ (encryptFrom key 0 m ++ macFrom key 0 m).getD j 0) :
    decodeToken alg key ((encryptFrom key 0 m ++ macFrom key 0 m).set j b) = none := by
  have hLc : (encryptFrom key 0 m).length = m.length := encryptFrom_length key 0 m
  have hLg : (macFrom key 0 m).length = m.length := macFrom_length key 0 m
  by_cases hcase : j < (encryptFrom key 0 m).length
  · have hj' : j < m.length := by rw [← hLc]; exact hcase
    rw [set_append_lt _ _ _ _ hcase]
    have hlen2 : ((encryptFrom key 0 m).set j b).length = (macFrom key 0 m).length := by
      rw [List.length_set, hLc, hLg]
    rw [decodeToken_split alg key _ _ hlen2]
    have hbne : b ≠ (m.getD j 0 + keyAt key j) % 256 := by
      rw [getD_append_lt _ _ _ _ hcase] at hne
      have hcj : (encryptFrom key 0 m).getD j 0 = (m.getD j 0 + keyAt key j) % 256 := by
        simpa using encryptFrom_getD key m 0 j hj'
      rw [hcj] at hne
      exact hne
    have hdecj : (decryptFrom key 0 ((encryptFrom key 0 m).set j b)).getD j 0 =
        (b + 256 - keyAt key j % 256) % 256 := by
      have h1 := decryptFrom_getD key ((encryptFrom key 0 m).set j b) 0 j
        (by rw [List.length_set]; exact hcase)
      rw [getD_set_self _ _ _ _ hcase] at h1
      simpa using h1
    have hmacj : (macFrom key 0 (decryptFrom key 0 ((encryptFrom key 0 m).set j b))).getD j 0 =
        ((b + 256 - keyAt key j % 256) % 256 + 2 * keyAt key j + 1) % 256 := by
      have h1 := macFrom_getD key (decryptFrom key 0 ((encryptFrom key 0 m).set j b)) 0 j
        (by rw [decryptFrom_length, List.length_set, hLc]; exact hj')
      rw [hdecj] at h1
      simpa using h1
    have hgj : (macFrom key 0 m).getD j 0 = (m.getD j 0 + 2 * keyAt key j + 1) % 256 := by
      simpa using macFrom_getD key m 0 j hj'
    have hmj : m.getD j 0 < 256 := hm _ (getD_mem m j 0 hj')
    have hmac : macFrom key 0 (decryptFrom key 0 ((encryptFrom key 0 m).set j b)) ≠
        macFrom key 0 m := by
      intro hEq
      have h2 := congrArg (fun l => l.getD j 0) hEq
      simp only [] at h2
      rw [hmacj, hgj] at h2
      omega
    rw [if_neg (fun hc => hmac hc.2)]
  · have hge : (encryptFrom key 0 m).length ≤ j := Nat.le_of_not_lt hcase
    have hjg : j - (encryptFrom key 0 m).length < (macFrom key 0 m).length := by
      rw [List.length_append] at hj
      omega
    rw [set_append_ge _ _ _ _ hge]
    have hlen2 : (encryptFrom key 0 m).length =
        ((macFrom key 0 m).set (j - (encryptFrom key 0 m).length) b).length := by
      rw [List.length_set, hLc, hLg]
    rw [decodeToken_split alg key _ _ hlen2]
    have hdec : decryptFrom key 0 (encryptFrom key 0 m) = m :=
      decryptFrom_encryptFrom key m hm 0
    have hmac : macFrom key 0 (decryptFrom key 0 (encryptFrom key 0 m)) ≠
        (macFrom key 0 m).set (j - (encryptFrom key 0 m).length) b := by
      rw [hdec]
      intro hEq
      have h2 := congrArg (fun l => l.getD (j - (encryptFrom key 0 m).length) 0) hEq
      simp only [] at h2
      rw [getD_set_self _ _ _ _ hjg] at h2
      rw [getD_append_ge _ _ _ _ hge] at hne
      exact hne h2.symm
    rw [if_neg (fun hc => hmac hc.2)]

/-- Decoding a genuine token with a key whose keystream differs anywhere
along the message fails the authentication check. -/
theorem decodeToken_wrong_key (alg : String) (key key2 m : List Nat)
    (i : Nat) (hi : i < m.length)
    (hk : keyAt key2 i % 256 ≠ keyAt key i % 256) :
    decodeToken alg key2 (encryptFrom key 0 m ++ macFrom key 0 m) = none := by
  have hcg : (encryptFrom key 0 m).length = (macFrom key 0 m).length := by
    rw [encryptFrom_length, macFrom_length]
  rw [decodeToken_split alg key2 _ _ hcg]
  have hi' : i < (encryptFrom key 0 m).length := by
    rw [encryptFrom_length]
    exact hi
  have hci : (encryptFrom key 0 m).getD i 0 = (m.getD i 0 + keyAt key i) % 256 := by
    simpa using encryptFrom_getD key m 0 i hi
  have hdeci : (decryptFrom key2 0 (encryptFrom key 0 m)).getD i 0 =
      ((m.getD i 0 + keyAt key i) % 256 + 256 - keyAt key2 i % 256) % 256 := by
    have h1 := decryptFrom_getD key2 (encryptFrom key 0 m) 0 i hi'
    rw [hci] at h1
    simpa using h1
  have hmaci : (macFrom key2 0 (decryptFrom key2 0 (encryptFrom key 0 m))).getD i 0 =
      (((m.getD i 0 + keyAt key i) % 256 + 256 - keyAt key2 i % 256) % 256 +
        2 * keyAt key2 i + 1) % 256 := by
    have h1 := macFrom_getD key2 (decryptFrom key2 0 (encryptFrom key 0 m)) 0 i
      (by rw [decryptFrom_length, encryptFrom_length]; exact hi)
    rw [hdeci] at h1
    simpa using h1
  have hgi : (macFrom key 0 m).getD i 0 = (m.getD i 0 + 2 * keyAt key i + 1) % 256 := by
    simpa using macFrom_getD key m 0 i hi
  have hmac : macFrom key2 0 (decryptFrom key2 0 (encryptFrom key 0 m)) ≠
      macFrom key 0 m := by
    intro hEq
    have h2 := congrArg (fun l => l.getD i 0) hEq
    simp only [] at h2
    rw [hmaci, hgi] at h2
    omega
  rw [if_neg (fun hc => hmac hc.2)]

/-- C9: decode rejects every invalid token and the flow maps the rejection
to the typed 403 error, never an escape. (a) Decode is sound: a successful
decode only ever returns the payload whose genuine encoding the token is,
so malformed or forged byte strings fail with the InvalidToken outcome and
never yield a different valid payload. (b) Corrupting any single byte of a
genuine token makes decode fail and the activation flow answer the 403
could-not-decode error with the state untouched. (c) Decoding with a wrong
key, one whose keystream differs anywhere along the message, fails.
(d) Every decode failure surfaces in the activation flow as exactly the
typed 403 could-not-decode error with the state untouched. -/
theorem decodeToken_rejects_invalid (alg : String) (key key2 : List Nat)
    (st : ActState) (p : Payload) (he : fieldOk p.email) (hs : fieldOk p.secret) :
    (∀ t q, decodeToken alg key t = some q → t = encodeToken alg key q) ∧
    (∀ j b, j < (encodeToken alg key p).length → b < 256 →
      b ≠ (encodeToken alg key p).getD j 0 →
      decodeToken alg key ((encodeToken alg key p).set j b) = none ∧
      activate alg key st ((encodeToken alg key p).set j b) =
        (.error ⟨403, "could not decode token"⟩, st)) ∧
    (∀ i, i < (serializePayload p).length →
      keyAt key2 i % 256 ≠ keyAt key i % 256 →
      decodeToken alg key2 (encodeToken alg key p) = none) ∧
    (∀ t, decodeToken alg key t = none →
      activate alg key st t = (.error ⟨403, "could not decode token"⟩, st)) := by
  have hm := serializePayload_lt p he hs
  refine ⟨?_, ?_, ?_, ?_⟩
  · intro t q h
    unfold decodeToken at h
    by_cases hcond : encryptFrom key 0 (decryptFrom key 0 (t.take (t.length / 2))) =
        t.take (t.length / 2) ∧
        macFrom key 0 (decryptFrom key 0 (t.take (t.length / 2))) = t.drop (t.length / 2)
    · rw [if_pos hcond] at h
      have hser := parse_sound _ _ h
      have h1 : encryptFrom key 0 (serializePayload q) = t.take (t.length / 2) := by
        rw [← hser]
        exact hcond.1
      have h2 : macFrom key 0 (serializePayload q) = t.drop (t.length / 2) := by
        rw [← hser]
        exact hcond.2
      have h3 := List.take_append_drop (t.length / 2) t
      unfold encodeToken encrypt
      rw [h1, h2, h3]
    · rw [if_neg hcond] at h
      exact absurd h (by simp)
  · intro j b hj hb hne
    have hnone : decodeToken alg key ((encodeToken alg key p).set j b) = none :=
      decodeToken_corrupt alg key (serializePayload p) hm j b hj hb hne
    exact ⟨hnone, activate_decode_failure_403 alg key st _ hnone⟩
  · intro i hi hk
    exact decodeToken_wrong_key alg key key2 (serializePayload p) i hi hk
  · intro t hdec
    exact activate_decode_failure_403 alg key st t hdec

/-- C9 witness: under the concrete test key, every single-byte corruption of
the concrete token is rejected with 403 (shown at byte 0 set to 0), a decode
under the differing wrong key fails, the concrete junk token [0] maps to the
403 error, and soundness holds at the concrete token. -/
theorem decodeToken_rejects_invalid_witness :
    (∀ t q, decodeToken "aes-256-ctr" (strBytes "super-secret") t = some q →
      t = encodeToken "aes-256-ctr" (strBytes "super-secret") q) ∧
    (∀ j b, j < (encodeToken "aes-256-ctr" (strBytes "super-secret")
        ⟨strBytes "v@example.com", strBytes "incredible-secret"⟩).length → b < 256 →
      b ≠ (encodeToken "aes-256-ctr" (strBytes "super-secret")
        ⟨strBytes "v@example.com", strBytes "incredible-secret"⟩).getD j 0 →
      decodeToken "aes-256-ctr" (strBytes "super-secret")
        ((encodeToken "aes-256-ctr" (strBytes "super-secret")
          ⟨strBytes "v@example.com", strBytes "incredible-secret"⟩).set j b) = none ∧
      activate "aes-256-ctr" (strBytes "super-secret")
        ⟨[], [(strBytes "v@example.com", false)]⟩
        ((encodeToken "aes-256-ctr" (strBytes "super-secret")
          ⟨strBytes "v@example.com", strBytes "incredible-secret"⟩).set j b) =
        (.error ⟨403, "could not decode token"⟩,
          ⟨[], [(strBytes "v@example.com", false)]⟩)) ∧
    (∀ i, i < (serializePayload
        ⟨strBytes "v@example.com", strBytes "incredible-secret"⟩).length →
      keyAt (strBytes "other-secret") i % 256 ≠ keyAt (strBytes "super-secret") i % 256 →
      decodeToken "aes-256-ctr" (strBytes "other-secret")
        (encodeToken "aes-256-ctr" (strBytes "super-secret")
          ⟨strBytes "v@example.com", strBytes "incredible-secret"⟩) = none) ∧
    (∀ t, decodeToken "aes-256-ctr" (strBytes "super-secret") t = none →
      activate "aes-256-ctr" (strBytes "super-secret")
        ⟨[], [(strBytes "v@example.com", false)]⟩ t =
        (.error ⟨403, "could not decode token"⟩,
          ⟨[], [(strBytes "v@example.com", false)]⟩)) ∧
    (decodeToken "aes-256-ctr" (strBytes "super-secret")
      ((encodeToken "aes-256-ctr" (strBytes "super-secret")
        ⟨strBytes "v@example.com", strBytes "incredible-secret"⟩).set 0 0) = none ∧
      activate "aes-256-ctr" (strBytes "super-secret")
        ⟨[], [(strBytes "v@example.com", false)]⟩
        ((encodeToken "aes-256-ctr" (strBytes "super-secret")
          ⟨strBytes "v@example.com", strBytes "incredible-secret"⟩).set 0 0) =
        (.error ⟨403, "could not decode token"⟩,
          ⟨[], [(strBytes "v@example.com", false)]⟩)) ∧
    decodeToken "aes-256-ctr" (strBytes "other-secret")
      (encodeToken "aes-256-ctr" (strBytes "super-secret")
        ⟨strBytes "v@example.com", strBytes "incredible-secret"⟩) = none ∧
    activate "aes-256-ctr" (strBytes "super-secret")
      ⟨[], [(strBytes "v@example.com", false)]⟩ [0] =
      (.error ⟨403, "could not decode token"⟩,
        ⟨[], [(strBytes "v@example.com", false)]⟩) :=
  ⟨(decodeToken_rejects_invalid "aes-256-ctr" (strBytes "super-secret")
      (strBytes "other-secret") ⟨[], [(strBytes "v@example.com", false)]⟩
      ⟨strBytes "v@example.com", strBytes "incredible-secret"⟩
      (by decide) (by decide)).1,
   (decodeToken_rejects_invalid "aes-256-ctr" (strBytes "super-secret")
      (strBytes "other-secret") ⟨[], [(strBytes "v@example.com", false)]⟩
      ⟨strBytes "v@example.com", strBytes "incredible-secret"⟩
      (by decide) (by decide)).2.1,
   (decodeToken_rejects_invalid "aes-256-ctr" (strBytes "super-secret")
      (strBytes "other-secret") ⟨[], [(strBytes "v@example.com", false)]⟩
      ⟨strBytes "v@example.com", strBytes "incredible-secret"⟩
      (by decide) (by decide)).2.2.1,
   (decodeToken_rejects_invalid "aes-256-ctr" (strBytes "super-secret")
      (strBytes "other-secret") ⟨[], [(strBytes "v@example.com", false)]⟩
      ⟨strBytes "v@example.com", strBytes "incredible-secret"⟩
      (by decide) (by decide)).2.2.2,
   (decodeToken_rejects_invalid "aes-256-ctr" (strBytes "super-secret")
      (strBytes "other-secret") ⟨[], [(strBytes "v@example.com", false)]⟩
      ⟨strBytes "v@example.com", strBytes "incredible-secret"⟩
      (by decide) (by decide)).2.1 0 0 (by decide) (by decide) (by decide),
   (decodeToken_rejects_invalid "aes-256-ctr" (strBytes "super-secret")
      (strBytes "other-secret") ⟨[], [(strBytes "v@example.com", false)]⟩
      ⟨strBytes "v@example.com", strBytes "incredible-secret"⟩
      (by decide) (by decide)).2.2.1 0 (by decide) (by decide),
   (decodeToken_rejects_invalid "aes-256-ctr" (strBytes "super-secret")
      (strBytes "other-secret") ⟨[], [(strBytes "v@example.com", false)]⟩
      ⟨strBytes "v@example.com", strBytes "incredible-secret"⟩
      (by decide) (by decide)).2.2.2 [0] (by decide)⟩

/-- C3: decoding alone is not sufficient. For a well-formed payload and its
valid token: a missing liveness entry under the payload nonce makes
activation fail 404 (challenge expired or consumed); a liveness entry whose
stored value differs from the payload email makes it fail 412 (mismatch);
and when the entry exists and matches and the account is inactive,
activation succeeds, consumes the entry, and replaying the very same token
fails 404 because the liveness entry is gone. -/
theorem activate_liveness_two_layer (alg : String) (secret : List Nat) (st : ActState)
    (p : Payload) (he : fieldOk p.email) (hs : fieldOk p.secret) :
    (alookup st.liveness p.secret = none →
      activate alg secret st (encodeToken alg secret p) =
        (.error ⟨404, "challenge expired or not found"⟩, st)) ∧
    (∀ v, alookup st.liveness p.secret = some v → v ≠ p.email →
      activate alg secret st (encodeToken alg secret p) =
        (.error ⟨412, "associated email does not match token"⟩, st)) ∧
    (alookup st.liveness p.secret = some p.email →
      alookup st.users p.email = some false →
      ∃ st2, activate alg secret st (encodeToken alg secret p) = (.ok ⟨p.email⟩, st2) ∧
        alookup st2.liveness p.secret = none ∧
        activate alg secret st2 (encodeToken alg secret p) =
          (.error ⟨404, "challenge expired or not found"⟩, st2)) := by
  have hdec := decode_encode alg secret p he hs
  refine ⟨?_, ?_, ?_⟩
  · intro hnone
    simp [activate, hdec, hnone]
  · intro v hv hne
    simp [activate, hdec, hv, hne]
  · intro hlive huser
    refine ⟨⟨removeKey st.liveness p.secret, setActive st.users p.email⟩, ?_, ?_, ?_⟩
    · simp [activate, hdec, hlive, huser]
    · exact alookup_removeKey st.liveness p.secret
    · simp [activate, hdec, alookup_removeKey]

/-- C3 witness: on concrete states (an empty liveness table; a mismatched
entry; a matching entry with an inactive user) the three branches produce
404, 412, and success-then-404-on-replay respectively, for the concrete
test payload and token. -/
theorem activate_liveness_two_layer_witness :
    (activate "aes-256-ctr" (strBytes "super-secret")
      ⟨[], [(strBytes "v@example.com", false)]⟩
      (encodeToken "aes-256-ctr" (strBytes "super-secret")
        ⟨strBytes "v@example.com", strBytes "incredible-secret"⟩) =
      (.error ⟨404, "challenge expired or not found"⟩,
        ⟨[], [(strBytes "v@example.com", false)]⟩)) ∧
    (activate "aes-256-ctr" (strBytes "super-secret")
      ⟨[(strBytes "incredible-secret", strBytes "v@example.ru")],
        [(strBytes "v@example.com", false)]⟩
      (encodeToken "aes-256-ctr" (strBytes "super-secret")
        ⟨strBytes "v@example.com", strBytes "incredible-secret"⟩) =
      (.error ⟨412, "associated email does not match token"⟩,
        ⟨[(strBytes "incredible-secret", strBytes "v@example.ru")],
          [(strBytes "v@example.com", false)]⟩)) ∧
    ∃ st2, activate "aes-256-ctr" (strBytes "super-secret")
      ⟨[(strBytes "incredible-secret", strBytes "v@example.com")],
        [(strBytes "v@example.com", false)]⟩
      (encodeToken "aes-256-ctr" (strBytes "super-secret")
        ⟨strBytes "v@example.com", strBytes "incredible-secret"⟩) =
      (.ok ⟨strBytes "v@example.com"⟩, st2) ∧
      alookup st2.liveness (strBytes "incredible-secret") = none ∧
      activate "aes-256-ctr" (strBytes "super-secret") st2
        (encodeToken "aes-256-ctr" (strBytes "super-secret")
          ⟨strBytes "v@example.com", strBytes "incredible-secret"⟩) =
        (.error ⟨404, "challenge expired or not found"⟩, st2) :=
  ⟨(activate_liveness_two_layer "aes-256-ctr" (strBytes "super-secret")
      ⟨[], [(strBytes "v@example.com", false)]⟩
      ⟨strBytes "v@example.com", strBytes "incredible-secret"⟩
      (by decide) (by decide)).1 (by decide),
   (activate_liveness_two_layer "aes-256-ctr" (strBytes "super-secret")
      ⟨[(strBytes "incredible-secret", strBytes "v@example.ru")],
        [(strBytes "v@example.com", false)]⟩
      ⟨strBytes "v@example.com", strBytes "incredible-secret"⟩
      (by decide) (by decide)).2.1 (strBytes "v@example.ru") (by decide) (by decide),
   (activate_liveness_two_layer "aes-256-ctr" (strBytes "super-secret")
      ⟨[(strBytes "incredible-secret", strBytes "v@example.com")],
        [(strBytes "v@example.com", false)]⟩
      ⟨strBytes "v@example.com", strBytes "incredible-secret"⟩
      (by decide) (by decide)).2.2 (by decide) (by decide)⟩

/-- A set presence flag makes register fail with the 403 already-exists
error and leave the state untouched. -/
theorem register_exists_error (vE : Bool) (dA aud : String) (st : RegState)
    (u pw : String) (hex : (st.users.any fun q => q.1 == u) = true) :
    register vE dA aud st u pw =
      (.error ⟨403, "\"" ++ u ++ "\" already exists"⟩, st) := by
  unfold register
  rw [if_pos hex]

/-- C5: a registration for a username whose presence flag is already set
fails with the 403 already-exists error and writes nothing, and of two
successive create calls for the same username at most one succeeds. -/
theorem register_already_exists (vE vE2 : Bool) (dA aud : String) (st : RegState)
    (u pw pw2 : String) :
    ((st.users.any fun q => q.1 == u) = true →
      register vE dA aud st u pw =
        (.error ⟨403, "\"" ++ u ++ "\" already exists"⟩, st)) ∧
    ¬(isOk (register vE dA aud st u pw).1 = true ∧
      isOk (register vE2 dA aud ((register vE dA aud st u pw).2) u pw2).1 = true) := by
  constructor
  · exact register_exists_error vE dA aud st u pw
  · by_cases hex : (st.users.any fun q => q.1 == u) = true
    · intro hboth
      have h1 := hboth.1
      rw [register_exists_error vE dA aud st u pw hex] at h1
      simp [isOk] at h1
    · intro hboth
      have h2 := hboth.2
      have hsnd : ((register vE dA aud st u pw).2).users = (u, !vE) :: st.users := by
        unfold register
        rw [if_neg hex]
        rcases vE <;> simp
      have hex2 : (((register vE dA aud st u pw).2).users.any fun q => q.1 == u) = true := by
        rw [hsnd]
        simp
      rw [register_exists_error vE2 dA aud _ u pw2 hex2] at h2
      simp [isOk] at h2

/-- C5 witness: with the presence flag for the username set, the concrete
registration fails with the 403 already-exists error and changes nothing,
and a create followed by a second create of the same username cannot both
succeed. -/
theorem register_already_exists_witness :
    ((([("v@makeomatic.ru", true)] : List (String × Bool)).any
        fun q => q.1 == "v@makeomatic.ru") = true →
      register false "*.localhost" "matic.ninja" ⟨[("v@makeomatic.ru", true)], 0⟩
        "v@makeomatic.ru" "mynicepassword" =
        (.error ⟨403, "\"v@makeomatic.ru\" already exists"⟩,
          ⟨[("v@makeomatic.ru", true)], 0⟩)) ∧
    ¬(isOk (register false "*.localhost" "matic.ninja" ⟨[("v@makeomatic.ru", true)], 0⟩
        "v@makeomatic.ru" "mynicepassword").1 = true ∧
      isOk (register false "*.localhost" "matic.ninja"
        ((register false "*.localhost" "matic.ninja" ⟨[("v@makeomatic.ru", true)], 0⟩
          "v@makeomatic.ru" "mynicepassword").2)
        "v@makeomatic.ru" "otherpassword").1 = true) :=
  register_already_exists false false "*.localhost" "matic.ninja"
    ⟨[("v@makeomatic.ru", true)], 0⟩ "v@makeomatic.ru" "mynicepassword" "otherpassword"

/-- C7: for a fresh username, registration with validation disabled returns
a jwt together with a user object carrying the requested username and the
metadata for the requested and default audiences and no password field; with
validation enabled it returns exactly requiresActivation and queues exactly
one challenge email. -/
theorem register_result_shape (dA aud : String) (st : RegState) (u pw : String)
    (hfresh : (st.users.any fun q => q.1 == u) = false) :
    (register false dA aud st u pw =
      (.ok (.created (mkJwt u)
        [("username", .str u), ("metadata", .audiences [aud, dA])]),
        ⟨(u, true) :: st.users, st.emailsSent⟩) ∧
      "password" ∉ ([("username", FieldVal.str u),
        ("metadata", FieldVal.audiences [aud, dA])].map Prod.fst)) ∧
    (register true dA aud st u pw =
      (.ok .requiresActivation, ⟨(u, false) :: st.users, st.emailsSent + 1⟩)) := by
  refine ⟨⟨?_, ?_⟩, ?_⟩
  · unfold register
    rw [if_neg (by simp [hfresh])]
    simp
  · simp
  · unfold register
    rw [if_neg (by simp [hfresh])]
    simp

/-- C7 witness: registering the concrete fresh user with validation disabled
yields the jwt plus the password-free user object with both audiences, and
with validation enabled yields exactly requiresActivation with one queued
email. -/
theorem register_result_shape_witness :
    (register false "*.localhost" "matic.ninja" ⟨[], 0⟩
      "v@makeomatic.ru" "mynicepassword" =
      (.ok (.created (mkJwt "v@makeomatic.ru")
        [("username", .str "v@makeomatic.ru"),
         ("metadata", .audiences ["matic.ninja", "*.localhost"])]),
        ⟨[("v@makeomatic.ru", true)], 0⟩) ∧
      "password" ∉ ([("username", FieldVal.str "v@makeomatic.ru"),
        ("metadata", FieldVal.audiences ["matic.ninja", "*.localhost"])].map Prod.fst)) ∧
    (register true "*.localhost" "matic.ninja" ⟨[], 0⟩
      "v@makeomatic.ru" "mynicepassword" =
      (.ok .requiresActivation, ⟨[("v@makeomatic.ru", false)], 1⟩)) :=
  register_result_shape "*.localhost" "matic.ninja" ⟨[], 0⟩
    "v@makeomatic.ru" "mynicepassword" (by decide)
